import Mathlib

/-!
Verification of the coordination logic in `tools/internal_test.py`.

The script coordinates a producer ("bot", `run_bot`) and a consumer
("tester", `run_continuously`) through three signal blobs in cloud storage
(`READY_FOR_TESTING`, `TESTING`, `TESTING_COMPLETE`), runs an ordered list
of commands with a wall-clock timeout (`execute` / `run_once`), and archives
failing commands' logs (`archive_log`) plus an overall status per git hash
(`archive_status`).

This file gives a shallow embedding of those functions and proves or refutes
the specification's claims about them.  External effects (the actual child
process, cloud storage, git) are modelled by explicit data: a `Proc` value
describes the observable behaviour of the spawned process, a `GState` value
is the content of the shared store, and the consumer/bot loop bodies are
functions producing the list of store operations they perform, in order.
-/

namespace InternalTest

/-! ## Constants (source lines 42, 138-152)

`RUN_TIMEOUT = 3600 * 6` seconds; `BOT_RUN_TIMEOUT = RUN_TIMEOUT *
len(TEST_COMMANDS)`.  `TEST_COMMANDS` has 3 fixed entries plus three maps
over the 4 `BENCHMARK_APPS`, i.e. 15 entries; `PULL_DELAY = 30`. -/

def RUN_TIMEOUT : Nat := 3600 * 6

def NUM_TEST_COMMANDS : Nat := 15

def BOT_RUN_TIMEOUT : Nat := RUN_TIMEOUT * NUM_TEST_COMMANDS

def PULL_DELAY : Nat := 30

/-! ## Command runner (`execute`, source lines 353-388)

`execute` spawns the command and then loops: `while popen.poll() == None:`,
and in the body, if more than `RUN_TIMEOUT` seconds have elapsed it calls
`popen.terminate()` and sets `timed_out = True`, then sleeps 2 seconds.
After the loop it returns `popen.returncode`.

The external process is modelled by its observable behaviour: `duration` is
the number of seconds after which it exits of its own accord, `natCode` its
exit code in that case, and `dieOnTerm` says whether `popen.terminate()`
(SIGTERM, which a process may catch or ignore) actually kills it.  A killed
process reports exit code `-15` (negative signal number, as `subprocess`
does).  Polls happen at t = 0, 2, 4, ... seconds. -/

structure Proc where
  duration : Nat
  natCode : Int
  dieOnTerm : Bool
  deriving DecidableEq, Repr

def SIGTERM_CODE : Int := -15

/-- What `popen.poll()` reports at `t` seconds: `none` while the process is
still alive, otherwise its exit code.  `term` records whether
`popen.terminate()` has been called at a strictly earlier poll. -/
def pollResult (p : Proc) (t : Nat) (term : Bool) : Option Int :=
  if term && p.dieOnTerm then some SIGTERM_CODE
  else if p.duration ≤ t then some p.natCode
  else none

/-- The polling loop of `execute`: poll; if still running and
`t > RUN_TIMEOUT`, terminate and set `timed_out`; sleep 2.  Returns the
Execution Record `(exitcode, timed_out)`.  `fuel` bounds the number of
iterations (chosen large enough in `execute` below). -/
def pollLoop (p : Proc) : Nat → Bool → Bool → Nat → Option (Int × Bool)
  | _, _, _, 0 => none
  | t, timedOut, term, fuel+1 =>
    match pollResult p t term with
    | some c => some (c, timedOut)
    | none =>
      if t > RUN_TIMEOUT then pollLoop p (t+2) true true fuel
      else pollLoop p (t+2) timedOut term fuel

/-- `execute(cmd, archive, env)` (source line 353): an empty command is a
no-op returning `None` (no Execution Record); otherwise run the polling
loop.  The result is the Execution Record `(exitcode, timed_out)`. -/
def execute (cmd : List String) (p : Proc) : Option (Int × Bool) :=
  if cmd = [] then none
  else pollLoop p 0 false false (p.duration + RUN_TIMEOUT + 4)

/-- `run_once` (source lines 390-401): `failed = any([execute(cmd, archive,
env) for cmd in TEST_COMMANDS])`.  Python truthiness: `None` and `0` are
falsy, any non-zero integer is truthy.  Each command is paired with the
behaviour of the process it spawns. -/
def run_once (cs : List (List String × Proc)) : Bool :=
  cs.any fun c =>
    match execute c.1 c.2 with
    | none => false
    | some r => decide (r.1 ≠ 0)

/-- The Execution Records produced by one `run_once` sequence (empty
commands produce none, source line 354-355). -/
def executionRecords (cs : List (List String × Proc)) : List (Int × Bool) :=
  cs.filterMap fun c => execute c.1 c.2

/-! ## Shared store, signal blobs and the consumer loop

The three magic files `READY_FOR_TESTING` (spec name `OFFERED`), `TESTING`
(spec name `CLAIMED`) and `TESTING_COMPLETE` (spec name `FINISHED`) are
modelled as three optional string payloads; the per-hash `status` entries
are an association list.  The loop bodies are modelled as the ordered list
of store operations (`Event`s) they perform; `applyTrace` yields every
intermediate store state, i.e. every observation point. -/

inductive MagicName where
  | ready
  | testing
  | complete
  deriving DecidableEq, Repr

/-- Content of the `magic/` directory of the store. -/
structure MagicStore where
  ready : Option String
  testing : Option String
  complete : Option String
  deriving DecidableEq, Repr

/-- The store: the magic files plus the per-hash `{sha}/status` values
(most recent write first). -/
structure GState where
  magic : MagicStore
  status : List (String × String)
  deriving DecidableEq, Repr

/-- One store operation or loop action, in program order.  `restartCheck`
is a call to `restart_if_new_version` (source lines 178-185); `runCmds`
marks where `run_once(archive=True)` executes the command sequence;
`archiveStatus sha v` is `archive_status` writing `{sha}/status = v`
(source lines 215-217, note that the sha is `utils.get_HEAD_sha1()`). -/
inductive Event where
  | restartCheck
  | putMagic (n : MagicName) (sha : String)
  | deleteMagic (n : MagicName)
  | archiveStatus (sha : String) (value : String)
  | runCmds
  | exitProc (code : Nat)
  | sleep
  deriving DecidableEq, Repr

def put_magic_file (m : MagicStore) : MagicName → String → MagicStore
  | .ready, s => { m with ready := some s }
  | .testing, s => { m with testing := some s }
  | .complete, s => { m with complete := some s }

def delete_magic_file (m : MagicStore) : MagicName → MagicStore
  | .ready => { m with ready := none }
  | .testing => { m with testing := none }
  | .complete => { m with complete := none }

def applyEvent (g : GState) : Event → GState
  | .putMagic n s => { g with magic := put_magic_file g.magic n s }
  | .deleteMagic n => { g with magic := delete_magic_file g.magic n }
  | .archiveStatus sha v => { g with status := (sha, v) :: g.status }
  | _ => g

def applyEvents (g : GState) (es : List Event) : GState :=
  es.foldl applyEvent g

/-- All observation points while executing `es` from `g` (the state before
the first event, between any two consecutive events, and after the last). -/
def applyTrace (g : GState) : List Event → List GState
  | [] => [g]
  | e :: es => g :: applyTrace (applyEvent g e) es

/-- `get_status(sha)` (source lines 219-221): the `{sha}/status` value. -/
def status_of (g : GState) (sha : String) : Option String :=
  (g.status.find? fun e => e.1 == sha).map (·.2)

/-- Number of magic files present. -/
def magicCount (m : MagicStore) : Nat :=
  (if m.ready.isSome then 1 else 0) + (if m.testing.isSome then 1 else 0) +
    (if m.complete.isSome then 1 else 0)

/-- Environment of one consumer iteration: `checkout h` is the result of
`git_checkout(h)` (source lines 200-207, `none` when `git checkout` fails,
otherwise the sha of HEAD after the checkout); `masterTip` is
`utils.get_HEAD_sha1()` after the `git_pull()` inside a failed checkout
(the tip of master — the failed `git checkout` leaves HEAD there);
`runFailed` is the aggregate failure flag `run_once` would return. -/
structure ConsEnv where
  checkout : String → Option String
  masterTip : String
  runFailed : Bool

/-- One iteration of the `while True` loop of `run_continuously` (source
lines 309-339), as the ordered list of actions it performs.  The iteration
assumes the script source is unchanged (no re-exec happens), and a crash
free run.  Note: in the failed-checkout ("Gerrit change") branch,
`archive_status(0)` writes the status under `utils.get_HEAD_sha1()`, which
is the master tip, not under the offered hash; and the `continue` skips the
final sleep. -/
def consumer_iter_events (env : ConsEnv) (g : GState) : List Event :=
  .restartCheck ::
    match g.magic.ready with
    | none => [.sleep]
    | some h =>
      match env.checkout h with
      | none =>
        [.archiveStatus env.masterTip "0", .putMagic .complete h,
         .deleteMagic .ready]
      | some co =>
        .restartCheck ::
          if co = h then
            [.putMagic .testing h, .deleteMagic .ready, .runCmds,
             .archiveStatus h (if env.runFailed then "1" else "0"),
             .putMagic .complete h, .deleteMagic .testing, .sleep]
          else
            [.exitProc 1]

/-- A crash-free full handoff run: the producer `run_bot` (whose startup
cleanup deletes nothing from an empty store) writes
`READY_FOR_TESTING = hash` (source line 284), the consumer performs one
iteration, and the producer, having observed `TESTING_COMPLETE`, reads the
status and deletes `TESTING_COMPLETE` (source line 302). -/
def clean_run_events (env : ConsEnv) (hash : String) : List Event :=
  .putMagic .ready hash ::
    (consumer_iter_events env ⟨⟨some hash, none, none⟩, []⟩ ++
      [.deleteMagic .complete])

def clean_run_trace (env : ConsEnv) (hash : String) : List GState :=
  applyTrace ⟨⟨none, none, none⟩, []⟩ (clean_run_events env hash)

/-- Events that constitute "claiming" the offered work unit: writing
`TESTING` (spec: `CLAIMED`) or deleting `READY_FOR_TESTING` (spec:
`OFFERED`). -/
def isClaimEvent : Event → Bool
  | .putMagic .testing _ => true
  | .deleteMagic .ready => true
  | _ => false

/-! ## Producer (`run_bot`, source lines 274-307)

After writing `READY_FOR_TESTING = hash`, the bot loops: if more than
`BOT_RUN_TIMEOUT` seconds have elapsed, raise "Bot timeout"; if
`TESTING_COMPLETE` exists, break when its content equals `hash` and raise
"Non matching git hashes" otherwise; sleep `PULL_DELAY`.  After the break
it reads `{hash}/status`, deletes `TESTING_COMPLETE`, and returns 1 when
the status is not "0" (and `None` otherwise); `Main` passes that return
value to `sys.exit`, and `sys.exit(None)` is process exit code 0.

`obs k` is the content of `TESTING_COMPLETE` the bot observes at its k-th
poll (`none` when absent); `status_of_hash` is what `get_status` returns. -/

/-- Store operations the bot performs after its wait loop ends normally. -/
inductive BotEv where
  | readStatus (sha : String)
  | deleteFinished
  deriving DecidableEq, Repr

/-- The bot's wait loop.  The k-th iteration happens `PULL_DELAY * k`
seconds after `begin`; fuel bounds the iteration count and is chosen in
`run_bot_after_offer` so that it outlasts the timeout check. -/
def botLoop (hash : String) (obs : Nat → Option String) :
    Nat → Nat → Except String Unit
  | _, 0 => .error "Bot timeout"
  | k, fuel+1 =>
    if PULL_DELAY * k > BOT_RUN_TIMEOUT then .error "Bot timeout"
    else
      match obs k with
      | some p => if p = hash then .ok () else .error "Non matching git hashes"
      | none => botLoop hash obs (k+1) fuel

/-- `run_bot` from the point where `READY_FOR_TESTING = hash` has been
written (source lines 285-307): the wait loop, then read the Overall
Status, delete `TESTING_COMPLETE`, and return `1` (failure) or `None`
(success).  A raised exception performs none of the post-loop actions. -/
def run_bot_after_offer (hash : String) (obs : Nat → Option String)
    (status_of_hash : String → String) :
    Except String (Option Nat) × List BotEv :=
  match botLoop hash obs 0 (BOT_RUN_TIMEOUT / PULL_DELAY + 1) with
  | .error e => (.error e, [])
  | .ok () =>
    (.ok (if status_of_hash hash ≠ "0" then some 1 else none),
     [.readStatus hash, .deleteFinished])

/-- `sys.exit(Main())` for the `--bot` path (source lines 403-415):
`run_bot` returns `1` or `None`; `sys.exit(None)` exits with code 0. -/
def mainExit (r : Option Nat) : Nat :=
  r.getD 0

/-! ## Result archiver (`archive_log`, source lines 223-234, and the read
path of `fetch_and_print_logs`, source lines 262-272)

`archive_log` persists four values under `{sha}/{cmd_dir}/{field}` where
`cmd_dir` is the command string with spaces and slashes replaced by
underscores; the read path fetches, for an entry, the fields
`exitcode`, `timed_out`, `stderr`, `stdout`.  The log store is modelled as
an association list from `(sha, cmd_dir, field)` to the stored string;
`utils.archive_value` stores the string rendering of its value. -/

def EXITCODE : String := "exitcode"
def TIMED_OUT : String := "timed_out"
def STDOUT : String := "stdout"
def STDERR : String := "stderr"

/-- An Execution Record as handed to `handle_output`/`archive_log`. -/
structure ExecRecord where
  exitcode : Int
  timedOut : Bool
  stdout : String
  stderr : String
  deriving DecidableEq, Repr

abbrev LogKey := String × String × String

def LogStore := List (LogKey × String)

/-- Label sanitisation (source line 225):
`cmd.replace(' ', '_').replace('/', '_')`. -/
def sanitize_cmd (cmd : String) : String :=
  (cmd.replace " " "_").replace "/" "_"

/-- `archive_log(stdout, stderr, exitcode, timed_out, cmd)` writes the four
fields under `{sha}/{cmd_dir}` (writes in source order; later writes sit
earlier in the association list). -/
def archive_log (store : LogStore) (sha cmd : String) (r : ExecRecord) :
    LogStore :=
  let dir := sanitize_cmd cmd
  ((sha, dir, STDERR), r.stderr) ::
    ((sha, dir, STDOUT), r.stdout) ::
      ((sha, dir, TIMED_OUT), toString r.timedOut) ::
        ((sha, dir, EXITCODE), toString r.exitcode) :: store

def get_value : LogStore → LogKey → Option String
  | [], _ => none
  | (k, v) :: rest, key => if k = key then some v else get_value rest key

/-- The read path of `fetch_and_print_logs` for one archived entry: fetch
`exitcode`, `timed_out`, `stderr`, `stdout` (in the order the source prints
them) for the given `(identifier, label)` pair. -/
def fetch_log (store : LogStore) (sha label : String) :
    Option String × Option String × Option String × Option String :=
  (get_value store (sha, label, EXITCODE),
   get_value store (sha, label, TIMED_OUT),
   get_value store (sha, label, STDERR),
   get_value store (sha, label, STDOUT))

/-! ## Poll-loop lemmas -/

/-- One blocked iteration of the polling loop. -/
theorem pollLoop_step (p : Proc) (t : Nat) (tm term : Bool) (f : Nat)
    (hnone : pollResult p t term = none) :
    pollLoop p t tm term (f + 1) =
      if t > RUN_TIMEOUT then pollLoop p (t + 2) true true f
      else pollLoop p (t + 2) tm term f := by
  simp only [pollLoop, hnone]

/-- Once `terminate()` has been called and `timed_out` is set, the loop ends
with the kill code if the process dies from SIGTERM, else with the natural
exit code, and `timed_out` stays set. -/
theorem pollLoop_after_term (p : Proc) :
    ∀ f t, p.duration ≤ t + 2 * f →
      pollLoop p t true true (f + 1) =
        some (if p.dieOnTerm then SIGTERM_CODE else p.natCode, true) := by
  intro f
  induction f with
  | zero =>
    intro t ht
    simp only [Nat.mul_zero, Nat.add_zero] at ht
    cases hdie : p.dieOnTerm <;> simp [pollLoop, pollResult, hdie, ht]
  | succ f ih =>
    intro t ht
    by_cases hfin : p.duration ≤ t
    · cases hdie : p.dieOnTerm <;> simp [pollLoop, pollResult, hdie, hfin]
    · cases hdie : p.dieOnTerm
      · have hrec := ih (t + 2) (by omega)
        rw [hdie] at hrec
        have hnone : pollResult p t true = none := by
          simp [pollResult, hdie, hfin]
        rw [pollLoop_step p t true true (f + 1) hnone]
        split <;> exact hrec
      · simp [pollLoop, pollResult, hdie]

/-- A process still alive strictly after the `RUN_TIMEOUT` boundary poll
(i.e. with `duration > RUN_TIMEOUT + 2`) is flagged `timed_out` and
terminated; the final exit code is the kill code or, if the process survives
SIGTERM, its natural code. -/
theorem pollLoop_timeout (p : Proc) (hd : RUN_TIMEOUT + 2 < p.duration) :
    ∀ f t, 2 ∣ t → t ≤ RUN_TIMEOUT + 2 →
      RUN_TIMEOUT + 4 + p.duration ≤ t + 2 * f →
      pollLoop p t false false f =
        some (if p.dieOnTerm then SIGTERM_CODE else p.natCode, true) := by
  intro f
  induction f with
  | zero =>
    intro t _ ht hf
    omega
  | succ f ih =>
    intro t hdvd ht hf
    have halive : ¬ p.duration ≤ t := by omega
    have hnone : pollResult p t false = none := by
      simp [pollResult, halive]
    by_cases hgt : t > RUN_TIMEOUT
    · -- the fuel left is at least one more iteration
      obtain ⟨f', rfl⟩ : ∃ f', f = f' + 1 := ⟨f - 1, by omega⟩
      rw [pollLoop_step p t false false (f' + 1) hnone, if_pos hgt]
      exact pollLoop_after_term p f' (t + 2) (by omega)
    · rw [pollLoop_step p t false false f hnone, if_neg hgt]
      exact ih (t + 2) (by omega) (by omega) (by omega)

/-- A process that exits on its own no later than the boundary poll at
`RUN_TIMEOUT + 2` seconds is never flagged: the record carries its natural
exit code and `timed_out = false`. -/
theorem pollLoop_natural (p : Proc) (hd : p.duration ≤ RUN_TIMEOUT + 2) :
    ∀ f t, 2 ∣ t → p.duration ≤ t + 2 * f →
      pollLoop p t false false (f + 1) = some (p.natCode, false) := by
  intro f
  induction f with
  | zero =>
    intro t _ ht
    simp only [Nat.mul_zero, Nat.add_zero] at ht
    simp [pollLoop, pollResult, ht]
  | succ f ih =>
    intro t hdvd ht
    by_cases hfin : p.duration ≤ t
    · simp [pollLoop, pollResult, hfin]
    · have hrt : (2 : Nat) ∣ RUN_TIMEOUT := ⟨10800, rfl⟩
      have hle : ¬ t > RUN_TIMEOUT := by omega
      have hnone : pollResult p t false = none := by
        simp [pollResult, hfin]
      rw [pollLoop_step p t false false (f + 1) hnone, if_neg hle]
      exact ih (t + 2) (by omega) (by omega)

/-- `execute` on a command whose process outlives the boundary poll:
timed out, exit code as in `pollLoop_timeout`. -/
theorem execute_timeout (cmd : List String) (p : Proc)
    (hc : cmd ≠ []) (hd : RUN_TIMEOUT + 2 < p.duration) :
    execute cmd p =
      some (if p.dieOnTerm then SIGTERM_CODE else p.natCode, true) := by
  simp only [execute, hc, if_false]
  exact pollLoop_timeout p hd (p.duration + RUN_TIMEOUT + 4) 0 (by omega)
    (by omega) (by omega)

/-- `execute` on a command whose process exits on its own by the boundary
poll: natural exit code, not timed out. -/
theorem execute_natural (cmd : List String) (p : Proc)
    (hc : cmd ≠ []) (hd : p.duration ≤ RUN_TIMEOUT + 2) :
    execute cmd p = some (p.natCode, false) := by
  simp only [execute, hc, if_false]
  have : p.duration + RUN_TIMEOUT + 4 = (p.duration + RUN_TIMEOUT + 3) + 1 := by
    omega
  rw [this]
  exact pollLoop_natural p hd (p.duration + RUN_TIMEOUT + 3) 0 (by omega)
    (by omega)

/-! ## Store-trace lemmas -/

/-- If a list of events contains no deletion of `TESTING_COMPLETE`, the
blob stays present at every observation point once present. -/
theorem complete_stays_present (es : List Event) :
    ∀ g : GState, Event.deleteMagic .complete ∉ es →
      g.magic.complete.isSome →
      ∀ st ∈ applyTrace g es, st.magic.complete.isSome := by
  induction es with
  | nil =>
    intro g _ hg st hst
    simp only [applyTrace, List.mem_singleton] at hst
    exact hst ▸ hg
  | cons e es ih =>
    intro g hdel hg st hst
    simp only [applyTrace, List.mem_cons] at hst
    rcases hst with rfl | hst
    · exact hg
    · refine ih (applyEvent g e) (fun hmem => hdel (List.mem_cons_of_mem e hmem))
        ?_ st hst
      cases e with
      | putMagic n s =>
        cases n <;>
          simp_all [applyEvent, put_magic_file]
      | deleteMagic n =>
        cases n with
        | ready => simpa [applyEvent, delete_magic_file] using hg
        | testing => simpa [applyEvent, delete_magic_file] using hg
        | complete => exact absurd (List.mem_cons_self _ _) hdel
      | archiveStatus sha v => simpa [applyEvent] using hg
      | restartCheck => simpa [applyEvent] using hg
      | runCmds => simpa [applyEvent] using hg
      | exitProc c => simpa [applyEvent] using hg
      | sleep => simpa [applyEvent] using hg

/-- The consumer loop never deletes `TESTING_COMPLETE`. -/
theorem consumer_never_deletes_complete (env : ConsEnv) (g : GState) :
    Event.deleteMagic .complete ∉ consumer_iter_events env g := by
  unfold consumer_iter_events
  cases hr : g.magic.ready with
  | none => simp
  | some h =>
    cases hco : env.checkout h with
    | none => simp [hco]
    | some co =>
      by_cases hch : co = h <;> simp [hco, hch]

/-- The wait loop ignores a prefix of polls that observe no
`TESTING_COMPLETE` file. -/
theorem botLoop_skip (hash : String) (obs : Nat → Option String) :
    ∀ n k fuel, (∀ i, i < n → obs (k + i) = none) →
      PULL_DELAY * (k + n) ≤ BOT_RUN_TIMEOUT →
      botLoop hash obs k (fuel + n) = botLoop hash obs (k + n) fuel := by
  intro n
  induction n with
  | zero => intro k fuel _ _; rfl
  | succ n ih =>
    intro k fuel hnone hb
    have hk : ¬ PULL_DELAY * k > BOT_RUN_TIMEOUT := by
      have : PULL_DELAY * k ≤ PULL_DELAY * (k + (n + 1)) :=
        Nat.mul_le_mul_left _ (by omega)
      omega
    have h0 : obs k = none := by
      have := hnone 0 (by omega)
      simpa using this
    have step : botLoop hash obs k (fuel + (n + 1)) =
        botLoop hash obs (k + 1) (fuel + n) := by
      simp only [show fuel + (n + 1) = (fuel + n) + 1 from rfl, botLoop, hk,
        if_false, h0]
      rfl
    have hshift : ∀ i, i < n → obs (k + 1 + i) = none := fun i hi => by
      have h := hnone (i + 1) (by omega)
      have he : k + 1 + i = k + (i + 1) := by omega
      rw [he]; exact h
    have hb' : PULL_DELAY * (k + 1 + n) ≤ BOT_RUN_TIMEOUT := by
      have he : k + 1 + n = k + (n + 1) := by omega
      rw [he]; exact hb
    rw [step, ih (k + 1) fuel hshift hb']
    congr 1
    omega

/-- Consumer iteration with no offer pending. -/
theorem consumer_iter_events_idle (env : ConsEnv) (g : GState)
    (h : g.magic.ready = none) :
    consumer_iter_events env g = [.restartCheck, .sleep] := by
  simp [consumer_iter_events, h]

/-- Consumer iteration in the failed-checkout ("Gerrit change") branch. -/
theorem consumer_iter_events_gerrit (env : ConsEnv) (g : GState) (h : String)
    (hr : g.magic.ready = some h) (hco : env.checkout h = none) :
    consumer_iter_events env g =
      [.restartCheck, .archiveStatus env.masterTip "0",
       .putMagic .complete h, .deleteMagic .ready] := by
  simp [consumer_iter_events, hr, hco]

/-- Consumer iteration in the successful-checkout branch. -/
theorem consumer_iter_events_success (env : ConsEnv) (g : GState) (h : String)
    (hr : g.magic.ready = some h) (hco : env.checkout h = some h) :
    consumer_iter_events env g =
      [.restartCheck, .restartCheck, .putMagic .testing h,
       .deleteMagic .ready, .runCmds,
       .archiveStatus h (if env.runFailed then "1" else "0"),
       .putMagic .complete h, .deleteMagic .testing, .sleep] := by
  simp [consumer_iter_events, hr, hco]

/-- Consumer iteration when the checked-out revision mismatches the offered
hash (fatal `sys.exit(1)`). -/
theorem consumer_iter_events_mismatch (env : ConsEnv) (g : GState)
    (h co : String) (hr : g.magic.ready = some h)
    (hco : env.checkout h = some co) (hch : co ≠ h) :
    consumer_iter_events env g =
      [.restartCheck, .restartCheck, .exitProc 1] := by
  simp [consumer_iter_events, hr, hco, hch]

/-! ## Claims -/

/-- C9: for every (identifier, label) pair, archiving an Execution Record
via `archive_log` and then reading it back for the same pair via the log
read path returns identical exit code, identical timed-out flag, and
byte-for-byte identical stdout and stderr. -/
theorem C9_archive_roundtrip (store : LogStore) (sha cmd : String)
    (r : ExecRecord) :
    fetch_log (archive_log store sha cmd r) sha (sanitize_cmd cmd) =
      (some (toString r.exitcode), some (toString r.timedOut),
        some r.stderr, some r.stdout) := by
  simp [fetch_log, archive_log, get_value, EXITCODE, TIMED_OUT, STDOUT,
    STDERR, Prod.ext_iff]

/-- C1 (counterexample): the claim "the aggregate failure flag of
`run_once` is true iff some Execution Record has non-zero exit code or
timed-out = true" fails for a single command whose process ignores SIGTERM
and exits 0 on its own 21603 seconds in: its record is
`(exitcode 0, timed_out true)` yet the aggregate flag is false, because
`run_once` only tests the exit codes. -/
theorem C1_counterexample :
    ¬ (run_once [(["x"], ⟨RUN_TIMEOUT + 3, 0, false⟩)] = true ↔
        ∃ r ∈ executionRecords [(["x"], ⟨RUN_TIMEOUT + 3, 0, false⟩)],
          r.1 ≠ 0 ∨ r.2 = true) := by
  have hex : execute ["x"] ⟨RUN_TIMEOUT + 3, 0, false⟩ = some (0, true) := by
    have h := execute_timeout ["x"] ⟨RUN_TIMEOUT + 3, 0, false⟩ (by decide)
      (by decide)
    simpa using h
  intro h
  have hrhs : ∃ r ∈ executionRecords [(["x"], ⟨RUN_TIMEOUT + 3, 0, false⟩)],
      r.1 ≠ 0 ∨ r.2 = true := by
    refine ⟨((0 : Int), true), ?_, Or.inr rfl⟩
    simp [executionRecords, hex]
  have hlhs := h.mpr hrhs
  simp [run_once, hex] at hlhs

/-- C1 (amended): the aggregate failure flag returned by `run_once` is true
iff at least one command's Execution Record has a non-zero exit code; the
timed-out flag does not enter the aggregation. -/
theorem C1_amended_aggregate_iff (cs : List (List String × Proc)) :
    run_once cs = true ↔ ∃ r ∈ executionRecords cs, r.1 ≠ 0 := by
  unfold run_once executionRecords
  rw [List.any_eq_true]
  constructor
  · rintro ⟨c, hc, ht⟩
    cases hex : execute c.1 c.2 with
    | none => rw [hex] at ht; simp at ht
    | some r =>
      rw [hex] at ht
      simp only [decide_eq_true_eq] at ht
      exact ⟨r, List.mem_filterMap.mpr ⟨c, hc, hex⟩, ht⟩
  · rintro ⟨r, hr, hne⟩
    obtain ⟨c, hc, hex⟩ := List.mem_filterMap.mp hr
    refine ⟨c, hc, ?_⟩
    rw [hex]
    simpa using hne

/-- C3 (counterexample): the claim "every command whose execution exceeds
`RUN_TIMEOUT` has timed-out = true, is terminated, and is not counted a
success" fails for a command that exits (with code 0) 21601 seconds in:
it exceeds `RUN_TIMEOUT` = 21600 s, but the liveness poll at 21602 s sees
it already finished before the timeout branch runs, so its record is
`(0, timed_out false)` and the aggregate flag stays false. -/
theorem C3_counterexample :
    ¬ ∀ (cmd : List String) (p : Proc) (r : Int × Bool), cmd ≠ [] →
        RUN_TIMEOUT < p.duration → execute cmd p = some r →
        r.2 = true ∧ run_once [(cmd, p)] = true := by
  intro h
  have hex : execute ["x"] ⟨RUN_TIMEOUT + 1, 0, true⟩ = some (0, false) := by
    have hn := execute_natural ["x"] ⟨RUN_TIMEOUT + 1, 0, true⟩ (by decide)
      (by decide)
    simpa using hn
  have hc := h ["x"] ⟨RUN_TIMEOUT + 1, 0, true⟩ ((0 : Int), false) (by decide)
    (by decide) hex
  simp at hc

/-- C3 (amended): a command whose process is still alive at the first
liveness poll past the timeout (strictly more than `RUN_TIMEOUT + 2`
seconds of runtime, given the 2-second poll interval) always yields
timed-out = true and `popen.terminate()` is invoked; its final exit code is
the SIGTERM code, or its natural exit code if the process survives SIGTERM,
and `run_once` counts it as a failure iff that final exit code is
non-zero. -/
theorem C3_amended_timeout (cmd : List String) (p : Proc) (hc : cmd ≠ [])
    (hd : RUN_TIMEOUT + 2 < p.duration) :
    execute cmd p =
        some (if p.dieOnTerm then SIGTERM_CODE else p.natCode, true) ∧
      (run_once [(cmd, p)] = true ↔
        (if p.dieOnTerm then SIGTERM_CODE else p.natCode) ≠ 0) := by
  have hex := execute_timeout cmd p hc hd
  refine ⟨hex, ?_⟩
  simp [run_once, hex]

/-- C3 (witness): the amended claim at a concrete SIGTERM-surviving
process. -/
theorem C3_amended_timeout_witness :
    (["x"] : List String) ≠ [] ∧
      RUN_TIMEOUT + 2 < (Proc.mk 21603 0 false).duration ∧
      (execute ["x"] (Proc.mk 21603 0 false) =
          some (if (Proc.mk 21603 0 false).dieOnTerm then SIGTERM_CODE
            else (Proc.mk 21603 0 false).natCode, true) ∧
        (run_once [(["x"], Proc.mk 21603 0 false)] = true ↔
          (if (Proc.mk 21603 0 false).dieOnTerm then SIGTERM_CODE
            else (Proc.mk 21603 0 false).natCode) ≠ 0)) :=
  ⟨by decide, by decide,
    C3_amended_timeout ["x"] (Proc.mk 21603 0 false) (by decide) (by decide)⟩

/-- C2 (counterexample): the claim "starting the consumer loop with a
nonempty subset of the three Signal Blobs present results in all three
being absent before any new work is claimed" is false: starting with
`OFFERED = "abc"` and a stale `FINISHED = "stale"`, the consumer performs a
claim write, yet at no observation point of the iteration are all three
blobs absent (the stale `FINISHED` is never cleaned up). -/
theorem C2_counterexample :
    magicCount (GState.mk (MagicStore.mk (some "abc") none (some "stale"))
        []).magic ≠ 0 ∧
      (consumer_iter_events (ConsEnv.mk (fun s => some s) "tip" false)
          (GState.mk (MagicStore.mk (some "abc") none (some "stale")) [])).any
        isClaimEvent = true ∧
      ∀ st ∈ applyTrace
          (GState.mk (MagicStore.mk (some "abc") none (some "stale")) [])
          (consumer_iter_events (ConsEnv.mk (fun s => some s) "tip" false)
            (GState.mk (MagicStore.mk (some "abc") none (some "stale")) [])),
        magicCount st.magic ≠ 0 := by
  decide

/-- C2 (amended): `run_continuously` performs no stale-blob cleanup at all:
it never deletes `TESTING_COMPLETE`, so a stale `FINISHED` blob present
when an iteration starts is still present (with some payload) at every
observation point of that iteration, including when `CLAIMED` is written.
Only the producer's startup (`run_bot`, source lines 277-280) clears stale
Signal Blobs. -/
theorem C2_amended_stale_finished_survives (env : ConsEnv) (g : GState)
    (s : String) (h : g.magic.complete = some s) :
    ∀ st ∈ applyTrace g (consumer_iter_events env g),
      st.magic.complete.isSome :=
  complete_stays_present (consumer_iter_events env g) g
    (consumer_never_deletes_complete env g) (by simp [h])

/-- C2 (witness): the amended claim at the concrete stale-start state. -/
theorem C2_amended_stale_finished_survives_witness :
    (GState.mk (MagicStore.mk (some "abc") none (some "stale"))
        []).magic.complete = some "stale" ∧
      (GState.mk (MagicStore.mk (some "abc") none (some "stale")) []) ∈
        applyTrace (GState.mk (MagicStore.mk (some "abc") none (some "stale")) [])
          (consumer_iter_events (ConsEnv.mk (fun s => some s) "tip" false)
            (GState.mk (MagicStore.mk (some "abc") none (some "stale")) [])) ∧
      (GState.mk (MagicStore.mk (some "abc") none (some "stale"))
        []).magic.complete.isSome :=
  ⟨rfl, by decide,
    C2_amended_stale_finished_survives
      (ConsEnv.mk (fun s => some s) "tip" false)
      (GState.mk (MagicStore.mk (some "abc") none (some "stale")) []) "stale"
      rfl
      (GState.mk (MagicStore.mk (some "abc") none (some "stale")) [])
      (by decide)⟩

/-- C4 (counterexample): the claim "at most one of the three Signal Blobs
exists at every observation point of a crash-free run" is false: in a clean
full handoff run for hash "abc", the observation point right after the
consumer writes `TESTING` (and before it deletes `READY_FOR_TESTING`) has
two Signal Blobs present. -/
theorem C4_counterexample :
    ¬ ∀ st ∈ clean_run_trace (ConsEnv.mk (fun s => some s) "tip" false) "abc",
        magicCount st.magic ≤ 1 := by
  decide

/-- C4 (amended): at every observation point of a crash-free full handoff
run, at most two of the three Signal Blobs exist: each party writes the
successor blob before deleting the predecessor, so exactly two coexist
transiently between the write and the delete, but never all three. -/
theorem C4_amended_at_most_two (env : ConsEnv) (hash : String) :
    ∀ st ∈ clean_run_trace env hash, magicCount st.magic ≤ 2 := by
  intro st hst
  unfold clean_run_trace clean_run_events at hst
  rcases hco : env.checkout hash with _ | co
  · rw [consumer_iter_events_gerrit env _ hash rfl hco] at hst
    simp only [List.cons_append, List.nil_append, applyTrace, applyEvent,
      put_magic_file, delete_magic_file, List.mem_cons,
      List.mem_singleton, List.not_mem_nil, or_false] at hst
    rcases hst with rfl | rfl | rfl | rfl | rfl | rfl | rfl <;>
      simp [magicCount]
  · by_cases hch : co = hash
    · subst hch
      rw [consumer_iter_events_success env _ co rfl hco] at hst
      simp only [List.cons_append, List.nil_append, applyTrace, applyEvent,
        put_magic_file, delete_magic_file, List.mem_cons,
        List.mem_singleton, List.not_mem_nil, or_false] at hst
      rcases hst with rfl | rfl | rfl | rfl | rfl | rfl | rfl | rfl | rfl |
        rfl | rfl | rfl <;> simp [magicCount]
    · rw [consumer_iter_events_mismatch env _ hash co rfl hco hch] at hst
      simp only [List.cons_append, List.nil_append, applyTrace, applyEvent,
        put_magic_file, delete_magic_file, List.mem_cons,
        List.mem_singleton, List.not_mem_nil, or_false] at hst
      rcases hst with rfl | rfl | rfl | rfl | rfl | rfl <;>
        simp [magicCount]

/-- C4 (witness): the amended bound at a concrete two-blob observation
point of a concrete clean run. -/
theorem C4_amended_at_most_two_witness :
    (GState.mk (MagicStore.mk (some "abc") (some "abc") none) []) ∈
        clean_run_trace (ConsEnv.mk (fun s => some s) "tip" false) "abc" ∧
      magicCount (GState.mk (MagicStore.mk (some "abc") (some "abc") none)
        []).magic ≤ 2 :=
  ⟨by decide,
    C4_amended_at_most_two (ConsEnv.mk (fun s => some s) "tip" false) "abc"
      (GState.mk (MagicStore.mk (some "abc") (some "abc") none) [])
      (by decide)⟩

/-- C5: exercising the failed-checkout ("Gerrit change") branch at the
concrete input `OFFERED = "abc"` with master tip "feedface": the consumer
does write `FINISHED = "abc"`, delete `OFFERED`, and run no command, but
`archive_status(0)` stores the Overall Status under the current HEAD
("feedface", the master tip left by the failed checkout), not under the
offered identifier "abc", whose status entry remains absent — contradicting
the claim that status "0" is written for the offered hash. -/
theorem C5_gerrit_status_under_wrong_sha :
    consumer_iter_events (ConsEnv.mk (fun _ => none) "feedface" false)
        (GState.mk (MagicStore.mk (some "abc") none none) []) =
      [.restartCheck, .archiveStatus "feedface" "0",
       .putMagic .complete "abc", .deleteMagic .ready] ∧
      status_of (applyEvents (GState.mk (MagicStore.mk (some "abc") none none) [])
        (consumer_iter_events (ConsEnv.mk (fun _ => none) "feedface" false)
          (GState.mk (MagicStore.mk (some "abc") none none) []))) "abc" = none ∧
      status_of (applyEvents (GState.mk (MagicStore.mk (some "abc") none none) [])
        (consumer_iter_events (ConsEnv.mk (fun _ => none) "feedface" false)
          (GState.mk (MagicStore.mk (some "abc") none none) []))) "feedface"
        = some "0" ∧
      (applyEvents (GState.mk (MagicStore.mk (some "abc") none none) [])
        (consumer_iter_events (ConsEnv.mk (fun _ => none) "feedface" false)
          (GState.mk (MagicStore.mk (some "abc") none none) []))).magic.complete
        = some "abc" ∧
      (applyEvents (GState.mk (MagicStore.mk (some "abc") none none) [])
        (consumer_iter_events (ConsEnv.mk (fun _ => none) "feedface" false)
          (GState.mk (MagicStore.mk (some "abc") none none) []))).magic.ready
        = none ∧
      Event.runCmds ∉ consumer_iter_events
        (ConsEnv.mk (fun _ => none) "feedface" false)
        (GState.mk (MagicStore.mk (some "abc") none none) []) := by
  decide

/-- C6: if the producer, after offering `hash`, first observes
`TESTING_COMPLETE` with a payload `p ≠ hash` (within the bot timeout), the
wait loop raises "Non matching git hashes" immediately: the Overall Status
is not read and `TESTING_COMPLETE` is not deleted (no post-loop store
operation happens). -/
theorem C6_finished_mismatch_raises (hash : String)
    (obs : Nat → Option String) (status_of_hash : String → String)
    (k : Nat) (p : String) (hpre : ∀ i, i < k → obs i = none)
    (ho : obs k = some p) (hp : p ≠ hash)
    (hb : PULL_DELAY * k ≤ BOT_RUN_TIMEOUT) :
    run_bot_after_offer hash obs status_of_hash =
      (.error "Non matching git hashes", []) := by
  unfold run_bot_after_offer
  have hloop : botLoop hash obs 0 (BOT_RUN_TIMEOUT / PULL_DELAY + 1) =
      .error "Non matching git hashes" := by
    have hkle : k ≤ BOT_RUN_TIMEOUT / PULL_DELAY := by
      rw [Nat.le_div_iff_mul_le (by norm_num [PULL_DELAY])]
      rw [Nat.mul_comm]
      exact hb
    have hsplit : BOT_RUN_TIMEOUT / PULL_DELAY + 1 =
        (BOT_RUN_TIMEOUT / PULL_DELAY + 1 - k) + k := by omega
    rw [hsplit, botLoop_skip hash obs k 0 _
      (fun i hi => by simpa using hpre i hi) (by simpa using hb)]
    obtain ⟨m, hm⟩ : ∃ m, BOT_RUN_TIMEOUT / PULL_DELAY + 1 - k = m + 1 :=
      ⟨BOT_RUN_TIMEOUT / PULL_DELAY - k, by omega⟩
    rw [Nat.zero_add, hm]
    have hkgt : ¬ PULL_DELAY * k > BOT_RUN_TIMEOUT := by omega
    simp only [botLoop, hkgt, if_false, ho, if_neg hp]
  rw [hloop]

/-- C6 (witness): a first observation carrying the wrong hash. -/
theorem C6_finished_mismatch_raises_witness :
    ("zzz" : String) ≠ "abc" ∧ PULL_DELAY * 0 ≤ BOT_RUN_TIMEOUT ∧
      run_bot_after_offer "abc" (fun _ => some "zzz") (fun _ => "0") =
        (.error "Non matching git hashes", []) :=
  ⟨by decide, by decide,
    C6_finished_mismatch_raises "abc" (fun _ => some "zzz") (fun _ => "0")
      0 "zzz" (fun i hi => absurd hi (Nat.not_lt_zero i)) rfl (by decide)
      (by decide)⟩

/-- C7: when the producer's wait loop completes normally, an Overall Status
of "1" for the offered hash makes the producer's process exit code non-zero
(`run_bot` returns 1), and a status of "0" makes it zero (`run_bot` returns
`None`, and `sys.exit(None)` is exit code 0). -/
theorem C7_exit_code_matches_status (hash : String)
    (obs : Nat → Option String) (status_of_hash : String → String)
    (r : Option Nat) (evs : List BotEv)
    (h : run_bot_after_offer hash obs status_of_hash = (.ok r, evs)) :
    (status_of_hash hash = "1" → mainExit r ≠ 0) ∧
      (status_of_hash hash = "0" → mainExit r = 0) := by
  unfold run_bot_after_offer at h
  rcases hbl : botLoop hash obs 0 (BOT_RUN_TIMEOUT / PULL_DELAY + 1) with e | u
  · rw [hbl] at h
    simp at h
  · cases u
    rw [hbl] at h
    simp only [Prod.mk.injEq, Except.ok.injEq] at h
    obtain ⟨hr, -⟩ := h
    constructor
    · intro h1
      rw [← hr]
      simp [h1, mainExit]
    · intro h0
      rw [← hr]
      simp [h0, mainExit]

/-- C7 (witness): a completed handoff with status "0" exits 0. -/
theorem C7_exit_code_matches_status_witness :
    ((fun _ : String => "0") "abc" = "1" → mainExit none ≠ 0) ∧
      ((fun _ : String => "0") "abc" = "0" → mainExit none = 0) :=
  C7_exit_code_matches_status "abc" (fun _ => some "abc") (fun _ => "0")
    none [.readStatus "abc", .deleteFinished] rfl

/-- C8 (counterexample): the claim that the self-update check is applied "a
second time immediately after a work unit is claimed but before any of its
commands are executed" is false at a concrete successful-checkout
iteration: the work unit is claimed and its commands do run, but no
`restart_if_new_version` call occurs between the claim write and the
command execution — both calls happen before `TESTING` is written. -/
theorem C8_counterexample :
    (consumer_iter_events (ConsEnv.mk (fun s => some s) "tip" false)
        (GState.mk (MagicStore.mk (some "abc") none none) [])).any
      isClaimEvent = true ∧
      (consumer_iter_events (ConsEnv.mk (fun s => some s) "tip" false)
          (GState.mk (MagicStore.mk (some "abc") none none) [])).any
        (fun e => e == Event.runCmds) = true ∧
      Event.restartCheck ∉
        (((consumer_iter_events (ConsEnv.mk (fun s => some s) "tip" false)
            (GState.mk (MagicStore.mk (some "abc") none none)
              [])).dropWhile fun e => !(isClaimEvent e)).takeWhile
          fun e => !(e == Event.runCmds)) := by
  decide

/-- C8 (amended): in every successful-checkout iteration the self-update
check runs exactly twice, once at the top of the iteration and once after
reading `OFFERED` and checking out — i.e. the second check happens before
`CLAIMED` is written (and hence before any command runs), not after the
claim. -/
theorem C8_amended_second_check_before_claim (env : ConsEnv) (g : GState)
    (h : String) (hr : g.magic.ready = some h)
    (hco : env.checkout h = some h) :
    consumer_iter_events env g =
      [.restartCheck, .restartCheck, .putMagic .testing h,
       .deleteMagic .ready, .runCmds,
       .archiveStatus h (if env.runFailed then "1" else "0"),
       .putMagic .complete h, .deleteMagic .testing, .sleep] :=
  consumer_iter_events_success env g h hr hco

/-- C8 (witness): the amended event order at a concrete iteration. -/
theorem C8_amended_second_check_before_claim_witness :
    (GState.mk (MagicStore.mk (some "abc") none none) []).magic.ready
        = some "abc" ∧
      (ConsEnv.mk (fun s => some s) "tip" false).checkout "abc"
        = some "abc" ∧
      consumer_iter_events (ConsEnv.mk (fun s => some s) "tip" false)
          (GState.mk (MagicStore.mk (some "abc") none none) []) =
        [.restartCheck, .restartCheck, .putMagic .testing "abc",
         .deleteMagic .ready, .runCmds,
         .archiveStatus "abc"
           (if (ConsEnv.mk (fun s => some s) "tip" false).runFailed
            then "1" else "0"),
         .putMagic .complete "abc", .deleteMagic .testing, .sleep] :=
  ⟨rfl, rfl,
    C8_amended_second_check_before_claim
      (ConsEnv.mk (fun s => some s) "tip" false)
      (GState.mk (MagicStore.mk (some "abc") none none) []) "abc" rfl rfl⟩

/-- C10: in every consumer iteration, every `restart_if_new_version` call
happens strictly before the first claim action (writing `TESTING` or
deleting `READY_FOR_TESTING`): once the claim has started, no restart check
(and hence no re-exec) can occur until the iteration's events end, so a
self-update restart never abandons work in the `CLAIMED` state. -/
theorem C10_no_restart_after_claim (env : ConsEnv) (g : GState) :
    Event.restartCheck ∉
      (consumer_iter_events env g).dropWhile fun e => !(isClaimEvent e) := by
  cases hr : g.magic.ready with
  | none =>
    rw [consumer_iter_events_idle env g hr]
    simp [List.dropWhile, isClaimEvent]
  | some h =>
    rcases hco : env.checkout h with _ | co
    · rw [consumer_iter_events_gerrit env g h hr hco]
      simp [List.dropWhile, isClaimEvent]
    · by_cases hch : co = h
      · subst hch
        rw [consumer_iter_events_success env g co hr hco]
        simp [List.dropWhile, isClaimEvent]
      · rw [consumer_iter_events_mismatch env g h co hr hco hch]
        simp [List.dropWhile, isClaimEvent]

end InternalTest
